import Mathlib

/-!
Verification of `src/oscar/forms/widgets.py` (django-oscar form widgets).

The Python code is shallowly embedded: strings are `List Char` (wrapped in
`String` at the interface), dictionaries are association lists in insertion
order, fallible code returns `Option`/`Except`, and in-place mutation of a
caller-supplied dictionary is embedded as explicit state passing (a function
returning the dictionary's contents after the call).
-/

set_option autoImplicit false

namespace OscarWidgets

/-! ## Python string primitives -/

/-- Python whitespace for `str.split()` / `str.strip()` (ASCII range). -/
def isPySpace (c : Char) : Bool :=
  c = ' ' || c = '\t' || c = '\n' || c = '\x0d' || c = '\x0b' || c = '\x0c'

/-- Python `str.strip()`: drop leading and trailing whitespace. -/
def pyStrip (l : List Char) : List Char :=
  ((l.dropWhile isPySpace).reverse.dropWhile isPySpace).reverse

/-- Helper for `str.split()`: `acc` holds the reversed current field. -/
def pyWordsAux : List Char → List Char → List (List Char)
  | [], acc => if acc = [] then [] else [acc.reverse]
  | c :: rest, acc =>
    if isPySpace c then
      if acc = [] then pyWordsAux rest [] else acc.reverse :: pyWordsAux rest []
    else pyWordsAux rest (c :: acc)

/-- Python `str.split()` with no argument: fields separated by whitespace runs,
no empty fields. -/
def pyWordsL (l : List Char) : List (List Char) :=
  pyWordsAux l []

/-- Python `str.split(sep)` for a one-character separator: keeps empty pieces,
`''.split(sep) == ['']`. -/
def pySplitC (sep : Char) (l : List Char) : List (List Char) :=
  List.splitOn sep l

/-- Python `sep.join(pieces)` for a one-character separator. -/
def pyJoinC (sep : Char) (pieces : List (List Char)) : List Char :=
  List.intercalate [sep] pieces

/-! ## Format-token tables and replacement machinery

Every replacement key in `widgets.py` is a two-character string `'%' + k`,
so a table is a list of `(k, output)` pairs in the source dictionary's
insertion order. -/

/-- A replacement table: second token character ↦ replacement output. -/
abbrev Tbl : Type := List (Char × List Char)

/-- First output stored under key `c`, if any. -/
def tblLookup (t : Tbl) (c : Char) : Option (List Char) :=
  match t with
  | [] => none
  | p :: rest => if p.1 = c then some p.2 else tblLookup rest c

/-- Python `converted.replace('%' + k, r)`: left-to-right, non-overlapping. -/
def pyReplace2 (k : Char) (r : List Char) : List Char → List Char
  | [] => []
  | [c] => [c]
  | c :: d :: rest =>
    if c = '%' ∧ d = k then r ++ pyReplace2 k r rest
    else c :: pyReplace2 k r (d :: rest)

/-- The `for search, replace in replacements.items(): converted =
converted.replace(search, replace)` loop, in insertion order. -/
def seqReplace (t : Tbl) (l : List Char) : List Char :=
  t.foldl (fun acc p => pyReplace2 p.1 p.2 acc) l

/-- Python `re.compile("(%Y|%y|...)").sub(lookup, text)`: one simultaneous
left-to-right pass (the alternatives are distinct two-character strings
starting with `'%'`, so at most one can match at a position). -/
def regexSub (t : Tbl) : List Char → List Char
  | [] => []
  | [c] => [c]
  | c :: d :: rest =>
    if c = '%' then
      match tblLookup t d with
      | some r => r ++ regexSub t rest
      | none => c :: regexSub t (d :: rest)
    else c :: regexSub t (d :: rest)

/-- A format string decomposed into recognized tokens and literal characters. -/
inductive Tok where
  | key (c : Char)
  | lit (c : Char)
deriving DecidableEq

/-- Greedy left-to-right tokenization against a table. -/
def toks (t : Tbl) : List Char → List Tok
  | [] => []
  | [c] => [.lit c]
  | c :: d :: rest =>
    if c = '%' ∧ (tblLookup t d).isSome then .key d :: toks t rest
    else .lit c :: toks t (d :: rest)

/-- Tokenwise substitution: each recognized token becomes its table output,
each literal character is kept unchanged in place. -/
def substToks (t : Tbl) : List Tok → List Char
  | [] => []
  | .key c :: ts => (tblLookup t c).getD [] ++ substToks t ts
  | .lit c :: ts => c :: substToks t ts

/-- Every `'%'` in the string starts a recognized two-character token. -/
def noStray (t : Tbl) : List Char → Bool
  | [] => true
  | [c] => (c ≠ '%' : Bool)
  | c :: d :: rest =>
    if c = '%' then (tblLookup t d).isSome && noStray t rest
    else noStray t (d :: rest)

/-- Well-formed token list: keys are in the table, literals are not `'%'`. -/
def wfToks (t : Tbl) : List Tok → Bool
  | [] => true
  | .key c :: ts => (tblLookup t c).isSome && wfToks t ts
  | .lit c :: ts => (c ≠ '%' : Bool) && wfToks t ts

/-- Partial rendering: tokens whose key is in `done` are already substituted,
the others still read `'%' + key`. -/
def renderP (t : Tbl) (done : List Char) : List Tok → List Char
  | [] => []
  | .key c :: ts =>
    (if c ∈ done then (tblLookup t c).getD [] else ['%', c]) ++ renderP t done ts
  | .lit c :: ts => c :: renderP t done ts

/-- The three replacement dictionaries of `widgets.py`, in source order. -/
def dtTable : Tbl :=
  [('Y', "yyyy".data), ('y', "yy".data), ('m', "mm".data), ('d', "dd".data),
   ('H', "hh".data), ('I', "HH".data), ('M', "ii".data), ('S', "ss".data)]

def timeTable : Tbl :=
  [('H', "hh".data), ('I', "HH".data), ('M', "ii".data), ('S', "ss".data)]

def maskTable : Tbl :=
  [('Y', "y".data), ('y', "99".data), ('m', "m".data), ('d', "d".data),
   ('H', "h".data), ('I', "h".data), ('M', "s".data), ('S', "s".data)]

/-! ## The format-translation functions of `widgets.py` -/

/-- Embeds `datetime_format_to_js_datetime_format`: apply the eight replacements in
source order, then `strip()`. -/
def datetime_format_to_js_datetime_format (s : String) : String :=
  String.mk (pyStrip (seqReplace dtTable s.data))

/-- Embeds `datetime_format_to_js_date_format`: `format.split()[0]` (IndexError —
modelled as `none` — when there is no field), then the datetime conversion. -/
def datetime_format_to_js_date_format (s : String) : Option String :=
  match pyWordsL s.data with
  | [] => none
  | w :: _ => some (datetime_format_to_js_datetime_format (String.mk w))

/-- The field `datetime_format_to_js_time_format` operates on: the second
whitespace-delimited field when there is one, otherwise the whole string
(the `except IndexError: pass` branch). -/
def timeField (s : String) : List Char :=
  match pyWordsL s.data with
  | _ :: w :: _ => w
  | _ => s.data

/-- Embeds `datetime_format_to_js_time_format`: select the field, apply the four
replacements in source order, then `strip()`. -/
def datetime_format_to_js_time_format (s : String) : String :=
  String.mk (pyStrip (seqReplace timeTable (timeField s)))

/-- Embeds `datetime_format_to_js_input_mask`: one simultaneous regex pass over the
eight-entry mask table, then `strip()`. -/
def datetime_format_to_js_input_mask (s : String) : String :=
  String.mk (pyStrip (regexSub maskTable s.data))

/-! ## Attribute dictionaries

Python dicts in insertion order: setting an existing key updates it in place,
a new key is appended. -/

def setAttr : List (String × String) → String → String → List (String × String)
  | [], k, v => [(k, v)]
  | (k', v') :: rest, k, v =>
    if k' = k then (k, v) :: rest else (k', v') :: setAttr rest k v

/-- First value stored under key `k`, if any. -/
def lookupA : List (String × String) → String → Option String
  | [], _ => none
  | (k', v') :: rest, k => if k' = k then some v' else lookupA rest k

/-- Python `dict.update(other)` for association lists. -/
def updateAttrs (d other : List (String × String)) : List (String × String) :=
  other.foldl (fun acc p => setAttr acc p.1 p.2) d

/-! ## `DateTimeWidgetMixin` and `DateTimePickerInput` -/

/-- Embeds `get_format`: `self.format or formats.get_format(self.format_key)[0]`;
`fallback` is the first entry of the localized format list. -/
def getFormat (fmt : Option String) (fallback : String) : String :=
  match fmt with
  | some f => if f = "" then fallback else f
  | none => fallback

/-- Embeds `DateTimeWidgetMixin.build_attrs`: the framework's merge
`{**base_attrs, **(extra_attrs or {})}` followed by setting
`data-inputmask`. -/
def build_attrs (fmt : Option String) (fallback : String)
    (base : List (String × String)) (extra : Option (List (String × String))) :
    List (String × String) :=
  setAttr (updateAttrs base (extra.getD [])) "data-inputmask"
    ("'mask': '" ++ datetime_format_to_js_input_mask (getFormat fmt fallback) ++ "'")

/-- Python `re.sub(':?%S', '', format)`: each leftmost match is `':%S'` when the
optional colon is present, else `'%S'`. -/
def subColonS : List Char → List Char
  | [] => []
  | [c] => [c]
  | [c, d] => if c = '%' ∧ d = 'S' then [] else c :: subColonS [d]
  | c :: d :: e :: rest =>
    if c = ':' ∧ d = '%' ∧ e = 'S' then subColonS rest
    else if c = '%' ∧ d = 'S' then subColonS (e :: rest)
    else c :: subColonS (d :: e :: rest)

/-- Effect of `DateTimePickerInput.__init__` on `self.format`: pop
`include_seconds` (default `False`); when it is falsy and a truthy format is
stored, strip the seconds token. -/
def dateTimePickerFormat (fmt : Option String) (include_seconds : Bool) :
    Option String :=
  match fmt with
  | none => none
  | some f =>
    if include_seconds = false ∧ f ≠ "" then some (String.mk (subColonS f.data))
    else some f

/-! ## `RemoteSelect` and `MultipleRemoteSelect` -/

/-- Embeds `RemoteSelect.__init__`: a `lookup_url` kwarg overrides the class
attribute; a missing URL raises `ValueError`, otherwise it is stored. -/
def remoteSelectInit (classUrl kwargUrl : Option String) : Except String String :=
  match (match kwargUrl with | some u => some u | none => classUrl) with
  | none => Except.error "RemoteSelect requires a lookup ULR"
  | some u => Except.ok u

/-- Embeds `RemoteSelect.format_value`: `six.text_type(value or '')`. -/
def rs_format_value (value : Option String) : String :=
  match value with
  | none => ""
  | some s => s

/-- Embeds `RemoteSelect.value_from_datadict`: `data.get(name, None)`, stringified
when present. -/
def rs_value_from_datadict (data : List (String × String)) (name : String) :
    Option String :=
  lookupA data name

/-- The attribute dictionary `RemoteSelect.render` flattens into the emitted
`<input …>` tag: a copy of the caller's `attrs` updated with the six fixed
entries, in source order. -/
def rs_render_attrs (lookup_url : String) (is_multiple is_required : Bool)
    (name : String) (value : Option String)
    (attrs : Option (List (String × String))) : List (String × String) :=
  updateAttrs (attrs.getD [])
    [("type", "hidden"), ("name", name), ("data-ajax-url", lookup_url),
     ("data-multiple", if is_multiple then "multiple" else ""),
     ("value", rs_format_value value),
     ("data-required", if is_required then "required" else "")]

/-- Embeds `MultipleRemoteSelect.format_value`: join the truthy entries with `','`
when the list itself is truthy, else `''`. -/
def ms_format_value (v : List (List Char)) : List Char :=
  if v = [] then [] else pyJoinC ',' (v.filter (fun x => x ≠ []))

/-- String-level wrapper of `MultipleRemoteSelect.format_value`. -/
def ms_format_valueS (v : List String) : String :=
  String.mk (ms_format_value (v.map String.data))

/-- Embeds `MultipleRemoteSelect.value_from_datadict`: `[]` when the name is absent,
else the non-empty comma-separated segments. -/
def ms_value_from_datadict (data : List (String × String)) (name : String) :
    List String :=
  match lookupA data name with
  | none => []
  | some s => ((pySplitC ',' s.data).filter (fun x => x ≠ [])).map String.mk

/-! ## `AdvancedSelect` -/

/-- Value of an option attribute (`attrs['disabled'] = True` stores a bool). -/
inductive AttrVal where
  | str (s : String)
  | bool (b : Bool)
deriving DecidableEq

def setAttrV : List (String × AttrVal) → String → AttrVal → List (String × AttrVal)
  | [], k, v => [(k, v)]
  | (k', v') :: rest, k, v =>
    if k' = k then (k, v) :: rest else (k', v') :: setAttrV rest k v

def lookupAV : List (String × AttrVal) → String → Option AttrVal
  | [], _ => none
  | (k', v') :: rest, k => if k' = k then some v' else lookupAV rest k

/-- The option dictionary produced by the framework's `create_option`
(values already in `force_text` string form). -/
structure SelectOption where
  name : String
  value : String
  label : String
  selected : Bool
  index : Nat
  attrs : List (String × AttrVal)
deriving DecidableEq

/-- Embeds `AdvancedSelect.__init__`: it stores `set(force_text(v) for v in
disabled_values)`; membership in that set is list membership of the string
form. -/
def advSelectDisabled (disabled_values : List String) : List String :=
  disabled_values

/-- Embeds `AdvancedSelect.create_option`: take the framework option and set
`attrs['disabled'] = True` when the option's value is disabled. -/
def advCreateOption (disabled_values : List String) (base : SelectOption) :
    SelectOption :=
  if base.value ∈ advSelectDisabled disabled_values then
    { base with attrs := setAttrV base.attrs "disabled" (AttrVal.bool true) }
  else base

/-! ## Constructors that touch a caller-supplied attrs dictionary

`WYSIWYGTextArea.__init__` aliases the caller's dict (`kwargs.setdefault`)
and mutates it; `ImageInput.__init__` replaces a falsy (empty) dict by a
fresh one but mutates a non-empty one. Each embedding returns the contents
of the caller's dictionary after the call. -/

/-- Contents of the caller-supplied `attrs` dict after
`WYSIWYGTextArea.__init__` (`none` = no dict passed, a fresh one is used). -/
def wysiwyg_attrs_after (attrs : Option (List (String × String))) :
    List (String × String) :=
  let a := attrs.getD []
  let a := if (lookupA a "class").isSome then a else setAttr a "class" ""
  setAttr a "class" (((lookupA a "class").getD "") ++ " wysiwyg")

/-- Embeds `ImageInput.__init__`: first component = the caller's dict after the
call, second = the dict handed to the superclass. -/
def image_input_attrs (attrs : List (String × String)) :
    List (String × String) × List (String × String) :=
  if attrs = [] then ([], setAttr [] "accept" "image/*")
  else
    let a := setAttr attrs "accept" "image/*"
    (a, a)

/-! ## Dictionary lemmas -/

theorem lookupA_setAttr_self (d : List (String × String)) (k v : String) :
    lookupA (setAttr d k v) k = some v := by
  induction d with
  | nil => simp [setAttr, lookupA]
  | cons p rest ih =>
    obtain ⟨k', v'⟩ := p
    by_cases h : k' = k
    · simp [setAttr, h, lookupA]
    · simp [setAttr, h, lookupA, ih]

theorem lookupA_setAttr_ne (d : List (String × String)) (k v k' : String)
    (h : k ≠ k') : lookupA (setAttr d k v) k' = lookupA d k' := by
  induction d with
  | nil => simp [setAttr, lookupA, h]
  | cons p rest ih =>
    obtain ⟨k₀, v₀⟩ := p
    by_cases h₀ : k₀ = k
    · subst h₀; simp [setAttr, lookupA, h]
    · simp [setAttr, h₀, lookupA, ih]

theorem lookupAV_setAttrV_self (d : List (String × AttrVal)) (k : String)
    (v : AttrVal) : lookupAV (setAttrV d k v) k = some v := by
  induction d with
  | nil => simp [setAttrV, lookupAV]
  | cons p rest ih =>
    obtain ⟨k', v'⟩ := p
    by_cases h : k' = k
    · simp [setAttrV, h, lookupAV]
    · simp [setAttrV, h, lookupAV, ih]

/-! ## `str.split()` lemmas -/

theorem pyWordsAux_eq_nil_iff : ∀ (l acc : List Char),
    pyWordsAux l acc = [] ↔ acc = [] ∧ ∀ c ∈ l, isPySpace c = true := by
  intro l
  induction l with
  | nil =>
    intro acc
    by_cases h : acc = [] <;> simp [pyWordsAux, h]
  | cons c rest ih =>
    intro acc
    by_cases hsp : isPySpace c
    · by_cases h : acc = []
      · simp [pyWordsAux, hsp, h, ih]
      · simp [pyWordsAux, hsp, h]
    · simp [pyWordsAux, hsp, ih]

theorem pyWordsL_eq_nil_iff (l : List Char) :
    pyWordsL l = [] ↔ ∀ c ∈ l, isPySpace c = true := by
  simpa [pyWordsL] using pyWordsAux_eq_nil_iff l []

/-! ## Replacement-machinery lemmas

The sequential `str.replace` loop of the datetime/time translators agrees
with tokenwise substitution on strings without stray `'%'` characters; the
regex pass of the input-mask translator agrees with it unconditionally. -/

theorem tblLookup_mem {t : Tbl} {c : Char} {r : List Char}
    (h : tblLookup t c = some r) : (c, r) ∈ t := by
  induction t with
  | nil => simp [tblLookup] at h
  | cons p rest ih =>
    obtain ⟨k, out⟩ := p
    by_cases hk : k = c
    · subst hk
      simp [tblLookup] at h
      subst h
      exact List.mem_cons_self _ _
    · simp [tblLookup, hk] at h
      exact List.mem_cons_of_mem _ (ih h)

theorem pyReplace2_cons_ne (k : Char) (r : List Char) (c : Char)
    (hc : c ≠ '%') (l : List Char) :
    pyReplace2 k r (c :: l) = c :: pyReplace2 k r l := by
  cases l with
  | nil => rfl
  | cons d rest => simp [pyReplace2, hc]

theorem pyReplace2_append_no_pct (k : Char) (r : List Char) :
    ∀ l1 l2 : List Char, '%' ∉ l1 →
      pyReplace2 k r (l1 ++ l2) = l1 ++ pyReplace2 k r l2 := by
  intro l1
  induction l1 with
  | nil => intro l2 _; rfl
  | cons c cs ih =>
    intro l2 hno
    have hc : c ≠ '%' := fun hc => hno (hc ▸ List.mem_cons_self c cs)
    rw [List.cons_append, pyReplace2_cons_ne _ _ _ hc,
      ih l2 (fun hm => hno (List.mem_cons_of_mem _ hm)), List.cons_append]

theorem pyReplace2_hit (k : Char) (r : List Char) (l : List Char) :
    pyReplace2 k r ('%' :: k :: l) = r ++ pyReplace2 k r l := by
  simp [pyReplace2]

theorem pyReplace2_pct_miss (k : Char) (r : List Char) (d : Char)
    (hd : d ≠ k) (l : List Char) :
    pyReplace2 k r ('%' :: d :: l) = '%' :: pyReplace2 k r (d :: l) := by
  simp [pyReplace2, hd]

theorem pyReplace2_renderP (t : Tbl)
    (hOK : ∀ p ∈ t, p.1 ≠ '%' ∧ '%' ∉ p.2)
    (k : Char) (r : List Char) (hk : tblLookup t k = some r) (done : List Char) :
    ∀ ts : List Tok, wfToks t ts = true →
      pyReplace2 k r (renderP t done ts) = renderP t (k :: done) ts := by
  intro ts
  induction ts with
  | nil => intro _; rfl
  | cons tok ts ih =>
    intro hwf
    cases tok with
    | lit c =>
      have hc : c ≠ '%' ∧ wfToks t ts = true := by simpa [wfToks] using hwf
      rw [renderP, renderP, pyReplace2_cons_ne _ _ _ hc.1, ih hc.2]
    | key c =>
      have hc : (tblLookup t c).isSome = true ∧ wfToks t ts = true := by
        simpa [wfToks] using hwf
      obtain ⟨rc, hrc⟩ := Option.isSome_iff_exists.mp hc.1
      have hcprops := hOK (c, rc) (tblLookup_mem hrc)
      by_cases hdone : c ∈ done
      · rw [renderP, if_pos hdone, hrc, Option.getD_some]
        rw [pyReplace2_append_no_pct _ _ _ _ hcprops.2, ih hc.2,
          renderP, if_pos (List.mem_cons_of_mem _ hdone), hrc]
        rfl
      · by_cases hck : c = k
        · subst hck
          rw [renderP, if_neg hdone]
          show pyReplace2 c r ('%' :: c :: renderP t done ts) = _
          rw [pyReplace2_hit, ih hc.2, renderP, if_pos (List.mem_cons_self _ _),
            hk]
          rfl
        · rw [renderP, if_neg hdone]
          show pyReplace2 k r ('%' :: c :: renderP t done ts) = _
          rw [pyReplace2_pct_miss _ _ _ hck, pyReplace2_cons_ne _ _ _ hcprops.1,
            ih hc.2, renderP,
            if_neg (by simp [List.mem_cons, hck, hdone])]
          rfl

theorem foldl_pyReplace2_renderP (t : Tbl)
    (hOK : ∀ p ∈ t, p.1 ≠ '%' ∧ '%' ∉ p.2) :
    ∀ entries : List (Char × List Char),
      (∀ p ∈ entries, tblLookup t p.1 = some p.2) →
      ∀ (done : List Char) (ts : List Tok), wfToks t ts = true →
        List.foldl (fun acc p => pyReplace2 p.1 p.2 acc) (renderP t done ts)
            entries
          = renderP t ((entries.map Prod.fst).reverse ++ done) ts := by
  intro entries
  induction entries with
  | nil => intro _ done ts _; simp
  | cons p es ih =>
    intro hmem done ts hwf
    rw [List.foldl_cons,
      pyReplace2_renderP t hOK p.1 p.2 (hmem p (List.mem_cons_self _ _)) done ts
        hwf,
      ih (fun q hq => hmem q (List.mem_cons_of_mem _ hq)) (p.1 :: done) ts hwf]
    congr 1
    simp [List.reverse_cons, List.append_assoc]

theorem renderP_nil_toks (t : Tbl) :
    ∀ l : List Char, noStray t l = true → renderP t [] (toks t l) = l := by
  intro l
  induction l using toks.induct t with
  | case1 => intro _; rfl
  | case2 c => intro _; rfl
  | case3 c d rest hcd ih =>
    intro hns
    obtain ⟨hc, hsome⟩ := hcd
    subst hc
    have hrest : noStray t rest = true := by
      simpa [noStray, hsome] using hns
    simp only [toks, hsome, and_true, if_pos rfl, renderP]
    rw [if_neg (List.not_mem_nil d), ih hrest]
    rfl
  | case4 c d rest hcd ih =>
    intro hns
    by_cases hc : c = '%'
    · subst hc
      have hnsome : ¬ (tblLookup t d).isSome = true := fun hs => hcd ⟨rfl, hs⟩
      have h2 : (tblLookup t d).isSome = true ∧ noStray t rest = true := by
        simpa [noStray] using hns
      exact absurd h2.1 hnsome
    · have hrest : noStray t (d :: rest) = true := by
        simpa [noStray, hc] using hns
      rw [toks, if_neg hcd, renderP, ih hrest]

theorem wfToks_toks (t : Tbl) :
    ∀ l : List Char, noStray t l = true → wfToks t (toks t l) = true := by
  intro l
  induction l using toks.induct t with
  | case1 => intro _; rfl
  | case2 c =>
    intro hns
    have hc : c ≠ '%' := by simpa [noStray] using hns
    simp [toks, wfToks, hc]
  | case3 c d rest hcd ih =>
    intro hns
    obtain ⟨hc, hsome⟩ := hcd
    subst hc
    have hrest : noStray t rest = true := by
      simpa [noStray, hsome] using hns
    simp [toks, hsome, wfToks, ih hrest]
  | case4 c d rest hcd ih =>
    intro hns
    by_cases hc : c = '%'
    · subst hc
      have hnsome : ¬ (tblLookup t d).isSome = true := fun hs => hcd ⟨rfl, hs⟩
      have h2 : (tblLookup t d).isSome = true ∧ noStray t rest = true := by
        simpa [noStray] using hns
      exact absurd h2.1 hnsome
    · have hrest : noStray t (d :: rest) = true := by
        simpa [noStray, hc] using hns
      simp [toks, hcd, wfToks, hc, ih hrest]

theorem renderP_eq_substToks (t : Tbl) (done : List Char)
    (hdone : ∀ c : Char, (tblLookup t c).isSome = true → c ∈ done) :
    ∀ ts : List Tok, wfToks t ts = true → renderP t done ts = substToks t ts := by
  intro ts
  induction ts with
  | nil => intro _; rfl
  | cons tok ts ih =>
    intro hwf
    cases tok with
    | lit c =>
      have hc : c ≠ '%' ∧ wfToks t ts = true := by simpa [wfToks] using hwf
      rw [renderP, substToks, ih hc.2]
    | key c =>
      have hc : (tblLookup t c).isSome = true ∧ wfToks t ts = true := by
        simpa [wfToks] using hwf
      rw [renderP, substToks, if_pos (hdone c hc.1), ih hc.2]

/-- The sequential-replacement loop agrees with tokenwise substitution on
strings in which every `'%'` starts a recognized token. -/
theorem seqReplace_eq_substToks (t : Tbl)
    (hOK : ∀ p ∈ t, p.1 ≠ '%' ∧ '%' ∉ p.2)
    (hself : ∀ p ∈ t, tblLookup t p.1 = some p.2)
    (l : List Char) (hns : noStray t l = true) :
    seqReplace t l = substToks t (toks t l) := by
  have h0 := renderP_nil_toks t l hns
  have hwf := wfToks_toks t l hns
  have hdone : ∀ c : Char, (tblLookup t c).isSome = true →
      c ∈ (t.map Prod.fst).reverse ++ [] := by
    intro c hc
    obtain ⟨r, hr⟩ := Option.isSome_iff_exists.mp hc
    have hm := tblLookup_mem hr
    simp only [List.append_nil, List.mem_reverse, List.mem_map]
    exact ⟨(c, r), hm, rfl⟩
  calc seqReplace t l
      = List.foldl (fun acc p => pyReplace2 p.1 p.2 acc)
          (renderP t [] (toks t l)) t := by rw [h0]; rfl
    _ = renderP t ((t.map Prod.fst).reverse ++ []) (toks t l) :=
        foldl_pyReplace2_renderP t hOK t hself [] (toks t l) hwf
    _ = substToks t (toks t l) :=
        renderP_eq_substToks t _ hdone (toks t l) hwf

/-- The simultaneous regex pass agrees with tokenwise substitution on every
string. -/
theorem regexSub_eq_substToks (t : Tbl) :
    ∀ l : List Char, regexSub t l = substToks t (toks t l) := by
  intro l
  induction l using toks.induct t with
  | case1 => rfl
  | case2 c => rfl
  | case3 c d rest hcd ih =>
    obtain ⟨hc, hsome⟩ := hcd
    subst hc
    obtain ⟨r, hr⟩ := Option.isSome_iff_exists.mp hsome
    simp [regexSub, toks, hr, substToks, ih]
  | case4 c d rest hcd ih =>
    by_cases hc : c = '%'
    · subst hc
      have hnone : tblLookup t d = none := by
        cases hl : tblLookup t d with
        | none => rfl
        | some r => exact absurd ⟨rfl, by simp [hl]⟩ hcd
      simp [regexSub, toks, hnone, hcd, substToks, ih]
    · simp [regexSub, toks, hc, hcd, substToks, ih]

/-! ## String plumbing -/

theorem mk_data_eq (s : String) : String.mk s.data = s := rfl

theorem data_eq_nil_iff (s : String) : s.data = [] ↔ s = "" := by
  constructor
  · intro h
    cases s with
    | mk l => cases h; rfl
  · intro h; subst h; rfl

/-! ## Claim C1 -/

/-- C1 counterexample: `datetime_format_to_js_date_format "%d %m"` returns
`"dd"`, not the tokenwise in-place substitution `"dd mm"` the claim
prescribes — `format.split()[0]` drops everything after the first
whitespace-delimited field, so unrecognized text does not pass through
unchanged. -/
theorem c1_date_format_drops_second_field :
    datetime_format_to_js_date_format "%d %m"
      ≠ some (String.mk (substToks dtTable (toks dtTable "%d %m".data))) := by
  decide

/-- C1 (amended): each translation function substitutes its table's tokens
and passes all other characters through unchanged in place, up to the
corrections the code forces: the result is stripped of leading and trailing
whitespace; `datetime_format_to_js_date_format` translates only the first
whitespace-delimited field of its input, and
`datetime_format_to_js_time_format` only the second field when one exists
(otherwise the whole string); and for the two sequential-replacement
functions the tokenwise reading is asserted on inputs in which every `'%'`
begins a recognized token (a stray `'%'` adjacent to a replacement output
can be re-captured by a later replacement, e.g. `'%%Y' → 'yyyyy'`), while
`datetime_format_to_js_input_mask`'s single regex pass satisfies it for
every input. -/
theorem c1_token_substitution (s t u : String) (w : List Char)
    (ws : List (List Char))
    (hs : noStray dtTable s.data = true)
    (ht : noStray timeTable (timeField t) = true)
    (hu : pyWordsL u.data = w :: ws)
    (hw : noStray dtTable w = true) :
    datetime_format_to_js_datetime_format s
      = String.mk (pyStrip (substToks dtTable (toks dtTable s.data))) ∧
    datetime_format_to_js_time_format t
      = String.mk (pyStrip (substToks timeTable (toks timeTable (timeField t)))) ∧
    datetime_format_to_js_date_format u
      = some (String.mk (pyStrip (substToks dtTable (toks dtTable w)))) ∧
    ∀ v : String, datetime_format_to_js_input_mask v
      = String.mk (pyStrip (substToks maskTable (toks maskTable v.data))) := by
  refine ⟨?_, ?_, ?_, ?_⟩
  · unfold datetime_format_to_js_datetime_format
    rw [seqReplace_eq_substToks dtTable (by decide) (by decide) _ hs]
  · unfold datetime_format_to_js_time_format
    rw [seqReplace_eq_substToks timeTable (by decide) (by decide) _ ht]
  · unfold datetime_format_to_js_date_format
    rw [hu]
    show some (datetime_format_to_js_datetime_format (String.mk w)) = _
    unfold datetime_format_to_js_datetime_format
    rw [show (String.mk w).data = w from rfl,
      seqReplace_eq_substToks dtTable (by decide) (by decide) _ hw]
  · intro v
    unfold datetime_format_to_js_input_mask
    rw [regexSub_eq_substToks]

/-- Witness for C1: the amended statement at concrete format strings. -/
theorem c1_token_substitution_witness :
    datetime_format_to_js_datetime_format "%Y-%m-%d"
      = String.mk (pyStrip (substToks dtTable (toks dtTable "%Y-%m-%d".data))) ∧
    datetime_format_to_js_time_format "%d/%m/%Y %H:%M"
      = String.mk (pyStrip (substToks timeTable
          (toks timeTable (timeField "%d/%m/%Y %H:%M")))) ∧
    datetime_format_to_js_date_format "%d/%m %H"
      = some (String.mk (pyStrip (substToks dtTable (toks dtTable "%d/%m".data)))) ∧
    ∀ v : String, datetime_format_to_js_input_mask v
      = String.mk (pyStrip (substToks maskTable (toks maskTable v.data))) :=
  c1_token_substitution "%Y-%m-%d" "%d/%m/%Y %H:%M" "%d/%m %H" "%d/%m".data
    ["%H".data] (by decide) (by decide) (by decide) (by decide)

/-! ## Claim C3 -/

/-- C3 counterexample: the round trip does not reproduce every list — a
single value containing the delimiter, `["a,b"]`, serializes to `"a,b"` and
parses back as two values. -/
theorem c3_roundtrip_fails_on_comma_value :
    ms_value_from_datadict [("fld", ms_format_valueS ["a,b"])] "fld" ≠
      ["a,b"].filter (fun x => x ≠ "") := by decide

/-- C3 (amended): for every list of values whose string forms contain no
comma, parsing the comma-delimited string produced by
`MultipleRemoteSelect.format_value` with
`MultipleRemoteSelect.value_from_datadict` reproduces the original list with
its falsy (empty-string) entries removed, in order. -/
theorem c3_format_value_roundtrip (name : String) (v : List String)
    (h : ∀ x ∈ v, (',' : Char) ∉ x.data) :
    ms_value_from_datadict [(name, ms_format_valueS v)] name
      = v.filter (fun x => x ≠ "") := by
  have hlook : lookupA [(name, ms_format_valueS v)] name
      = some (ms_format_valueS v) := by simp [lookupA]
  unfold ms_value_from_datadict
  rw [hlook]
  show ((pySplitC ',' (ms_format_value (v.map String.data))).filter
      (fun x => x ≠ [])).map String.mk = v.filter (fun x => x ≠ "")
  have hLfilter : (v.map String.data).filter (fun x => x ≠ [])
      = (v.filter (fun x => x ≠ "")).map String.data := by
    rw [List.filter_map]
    congr 1
    refine List.filter_congr ?_
    intro x _
    simp [Function.comp, data_eq_nil_iff]
  by_cases hv : v = []
  · subst hv; decide
  · have hLne : v.map String.data ≠ [] := by simpa using hv
    rw [show ms_format_value (v.map String.data)
        = pyJoinC ',' ((v.map String.data).filter (fun x => x ≠ [])) from by
      simp [ms_format_value, hLne]]
    by_cases hFnil : (v.map String.data).filter (fun x => x ≠ []) = []
    · have h2 : v.filter (fun x => x ≠ "") = [] := by
        have := hLfilter.symm.trans hFnil
        simpa using this
      rw [hFnil, h2]
      decide
    · have hsplit : pySplitC ','
          (pyJoinC ',' ((v.map String.data).filter (fun x => x ≠ []))) =
          (v.map String.data).filter (fun x => x ≠ []) := by
        apply List.splitOn_intercalate
        · intro l hl
          have hlL : l ∈ v.map String.data := List.mem_of_mem_filter hl
          obtain ⟨x, hx, rfl⟩ := List.mem_map.mp hlL
          exact h x hx
        · exact hFnil
      rw [hsplit]
      rw [List.filter_eq_self.mpr (fun a ha => (List.mem_filter.mp ha).2)]
      rw [hLfilter, List.map_map,
        show String.mk ∘ String.data = id from funext fun s => rfl, List.map_id]

/-- Witness for C3: the round trip at the concrete list `["1", "", "2"]`
reproduces `["1", "2"]`. -/
theorem c3_format_value_roundtrip_witness :
    ms_value_from_datadict [("fld", ms_format_valueS ["1", "", "2"])] "fld"
      = ["1", "", "2"].filter (fun x => x ≠ "") :=
  c3_format_value_roundtrip "fld" ["1", "", "2"] (by decide)

/-! ## Claim C2 -/

/-- C2 counterexample: `datetime_format_to_js_date_format` is not total — on
the empty string `format.split()[0]` raises `IndexError` (modelled as
`none`), contradicting the claim that every translation function returns a
result on every input including the empty string. -/
theorem c2_date_format_raises_on_empty_string :
    datetime_format_to_js_date_format "" = none := by decide

/-- C2 (amended): `datetime_format_to_js_time_format`,
`datetime_format_to_js_datetime_format` and `datetime_format_to_js_input_mask`
are pure total functions of the input string (they are total Lean functions
`String → String` by construction), but `datetime_format_to_js_date_format`
raises `IndexError` exactly on inputs with no non-whitespace character: it
returns a result if and only if some character of the input is not
whitespace. -/
theorem c2_date_format_total_iff_nonblank (s : String) :
    (datetime_format_to_js_date_format s).isSome = true ↔
      ∃ c ∈ s.data, isPySpace c = false := by
  have h1 : (datetime_format_to_js_date_format s).isSome = true ↔
      pyWordsL s.data ≠ [] := by
    unfold datetime_format_to_js_date_format
    cases h : pyWordsL s.data <;> simp [h]
  rw [h1, Ne, pyWordsL_eq_nil_iff]
  simp

/-! ## Claim C4 -/

/-- C4: constructing a `RemoteSelect` with no lookup URL (neither a class
attribute nor a constructor argument) raises `ValueError`; when a URL is
supplied either way, construction succeeds and stores it (the constructor
argument taking precedence). -/
theorem c4_remote_select_requires_lookup_url :
    (∀ (c : Option String) (u : String),
        remoteSelectInit c (some u) = Except.ok u) ∧
    (∀ u : String, remoteSelectInit (some u) none = Except.ok u) ∧
    remoteSelectInit none none =
      Except.error "RemoteSelect requires a lookup ULR" :=
  ⟨fun c _ => by cases c <;> rfl, fun _ => rfl, rfl⟩

/-! ## Claim C5 -/

/-- C5 counterexample: the input-mask replacement dictionary is not
one-to-one — `'%H'` and `'%I'` both map to `'h'` (and `'%M'`, `'%S'` both map
to `'s'`). -/
theorem c5_mask_table_not_injective :
    ¬ (∀ p ∈ maskTable, ∀ q ∈ maskTable, p.2 = q.2 → p.1 = q.1) := by decide

/-- C5 (amended): the replacement dictionaries of
`datetime_format_to_js_datetime_format` and
`datetime_format_to_js_time_format` are one-to-one, but the input-mask table
of `datetime_format_to_js_input_mask` collapses `'%H'`/`'%I'` to `'h'` and
`'%M'`/`'%S'` to `'s'`. -/
theorem c5_table_injectivity :
    (∀ p ∈ dtTable, ∀ q ∈ dtTable, p.2 = q.2 → p.1 = q.1) ∧
    (∀ p ∈ timeTable, ∀ q ∈ timeTable, p.2 = q.2 → p.1 = q.1) ∧
    ('H', "h".data) ∈ maskTable ∧ ('I', "h".data) ∈ maskTable ∧
    ('M', "s".data) ∈ maskTable ∧ ('S', "s".data) ∈ maskTable := by decide

/-- Witness for C5: the injectivity statement applied to the concrete
`('Y', "yyyy")` entry of the datetime table. -/
theorem c5_table_injectivity_witness :
    (('Y', "yyyy".data) : Char × List Char).1 = ('Y', "yyyy".data).1 :=
  c5_table_injectivity.1 ('Y', "yyyy".data) (by decide)
    ('Y', "yyyy".data) (by decide) (by decide)

/-! ## Claim C6 -/

/-- C6: `RemoteSelect.render` emits a hidden input whose attributes include
`data-ajax-url` = the configured lookup URL, `data-multiple` = `'multiple'`
iff `is_multiple` and `''` otherwise, `data-required` = `'required'` iff
`is_required` and `''` otherwise; and `DateTimeWidgetMixin.build_attrs`
always adds a `data-inputmask` attribute containing the input-mask
translation of the widget's format. -/
theorem c6_render_emits_data_attributes
    (url name fallback : String) (mult req : Bool) (value : Option String)
    (attrs : Option (List (String × String))) (fmt : Option String)
    (base : List (String × String)) (extra : Option (List (String × String))) :
    lookupA (rs_render_attrs url mult req name value attrs) "type"
      = some "hidden" ∧
    lookupA (rs_render_attrs url mult req name value attrs) "data-ajax-url"
      = some url ∧
    lookupA (rs_render_attrs url mult req name value attrs) "data-multiple"
      = some (if mult then "multiple" else "") ∧
    lookupA (rs_render_attrs url mult req name value attrs) "data-required"
      = some (if req then "required" else "") ∧
    lookupA (build_attrs fmt fallback base extra) "data-inputmask"
      = some ("'mask': '" ++
          datetime_format_to_js_input_mask (getFormat fmt fallback) ++ "'") := by
  refine ⟨?_, ?_, ?_, ?_, ?_⟩ <;>
    simp [rs_render_attrs, build_attrs, updateAttrs, List.foldl,
      lookupA_setAttr_self, lookupA_setAttr_ne]

/-! ## Claim C7 -/

/-- C7 counterexample: `WYSIWYGTextArea.__init__` mutates the caller-supplied
`attrs` dictionary in place — after constructing the widget with an empty
dict, the caller's dict has gained a `'class'` entry, so not every widget
operation leaves caller-supplied arguments unchanged. -/
theorem c7_wysiwyg_init_mutates_callers_attrs :
    wysiwyg_attrs_after (some []) ≠ ([] : List (String × String)) := by decide

/-- C7 (amended): the widget operations are side-effect-free except the two
attrs-normalizing constructors: `WYSIWYGTextArea.__init__` appends
`' wysiwyg'` to the `'class'` entry of the caller-supplied attrs dict
(leaving every other key unchanged), and `ImageInput.__init__` sets the
`'accept'` key of a caller-supplied non-empty attrs dict (leaving every other
key unchanged; a falsy empty dict is replaced by a fresh one and not
mutated). -/
theorem c7_constructor_mutation_characterized
    (d : List (String × String)) (k : String)
    (hk : k ≠ "class") (hacc : k ≠ "accept") (hd : d ≠ []) :
    lookupA (wysiwyg_attrs_after (some d)) "class"
      = some (((lookupA d "class").getD "") ++ " wysiwyg") ∧
    lookupA (wysiwyg_attrs_after (some d)) k = lookupA d k ∧
    (image_input_attrs []).1 = [] ∧
    lookupA (image_input_attrs d).1 "accept" = some "image/*" ∧
    lookupA (image_input_attrs d).1 k = lookupA d k := by
  refine ⟨?_, ?_, rfl, ?_, ?_⟩
  · cases h : lookupA d "class" with
    | some v => simp [wysiwyg_attrs_after, h, lookupA_setAttr_self]
    | none =>
      simp [wysiwyg_attrs_after, h, lookupA_setAttr_self]
  · cases h : lookupA d "class" with
    | some v =>
      simp [wysiwyg_attrs_after, h, lookupA_setAttr_ne _ _ _ _ (Ne.symm hk)]
    | none =>
      simp [wysiwyg_attrs_after, h, lookupA_setAttr_ne _ _ _ _ (Ne.symm hk)]
  · simp [image_input_attrs, hd, lookupA_setAttr_self]
  · simp [image_input_attrs, hd, lookupA_setAttr_ne _ _ _ _ (Ne.symm hacc)]

/-- Witness for C7: the amended statement at a concrete one-entry dict and
key. -/
theorem c7_constructor_mutation_characterized_witness :
    lookupA (wysiwyg_attrs_after (some [("id", "x")])) "class"
      = some (((lookupA [("id", "x")] "class").getD "") ++ " wysiwyg") ∧
    lookupA (wysiwyg_attrs_after (some [("id", "x")])) "id"
      = lookupA [("id", "x")] "id" ∧
    (image_input_attrs []).1 = [] ∧
    lookupA (image_input_attrs [("id", "x")]).1 "accept" = some "image/*" ∧
    lookupA (image_input_attrs [("id", "x")]).1 "id"
      = lookupA [("id", "x")] "id" :=
  c7_constructor_mutation_characterized [("id", "x")] "id"
    (by decide) (by decide) (by decide)

/-! ## Claim C8 -/

/-- C8: `AdvancedSelect.create_option` marks an option disabled (sets
`attrs['disabled'] = True`) iff the string form of its value is in the stored
set of disabled values, and leaves every other field of the
framework-produced option unchanged. -/
theorem c8_advanced_select_disables_exactly_disabled_values
    (dv : List String) (base : SelectOption)
    (h : lookupAV base.attrs "disabled" = none) :
    (lookupAV (advCreateOption dv base).attrs "disabled"
        = some (AttrVal.bool true) ↔ base.value ∈ advSelectDisabled dv) ∧
    (base.value ∉ advSelectDisabled dv → advCreateOption dv base = base) ∧
    (advCreateOption dv base).name = base.name ∧
    (advCreateOption dv base).value = base.value ∧
    (advCreateOption dv base).label = base.label ∧
    (advCreateOption dv base).selected = base.selected ∧
    (advCreateOption dv base).index = base.index := by
  by_cases hm : base.value ∈ advSelectDisabled dv
  · simp [advCreateOption, hm, lookupAV_setAttrV_self]
  · simp [advCreateOption, hm, h]

/-- Witness for C8: a concrete option whose value `"2"` is in the disabled
set is marked disabled and keeps its other fields. -/
theorem c8_advanced_select_witness :
    (lookupAV (advCreateOption ["2", "3"]
        ⟨"fld", "2", "Two", false, 1, []⟩).attrs "disabled"
      = some (AttrVal.bool true) ↔
      (⟨"fld", "2", "Two", false, 1, []⟩ : SelectOption).value
        ∈ advSelectDisabled ["2", "3"]) ∧
    ((⟨"fld", "2", "Two", false, 1, []⟩ : SelectOption).value
        ∉ advSelectDisabled ["2", "3"] →
      advCreateOption ["2", "3"] ⟨"fld", "2", "Two", false, 1, []⟩
        = ⟨"fld", "2", "Two", false, 1, []⟩) ∧
    (advCreateOption ["2", "3"] ⟨"fld", "2", "Two", false, 1, []⟩).name
      = (⟨"fld", "2", "Two", false, 1, []⟩ : SelectOption).name ∧
    (advCreateOption ["2", "3"] ⟨"fld", "2", "Two", false, 1, []⟩).value
      = (⟨"fld", "2", "Two", false, 1, []⟩ : SelectOption).value ∧
    (advCreateOption ["2", "3"] ⟨"fld", "2", "Two", false, 1, []⟩).label
      = (⟨"fld", "2", "Two", false, 1, []⟩ : SelectOption).label ∧
    (advCreateOption ["2", "3"] ⟨"fld", "2", "Two", false, 1, []⟩).selected
      = (⟨"fld", "2", "Two", false, 1, []⟩ : SelectOption).selected ∧
    (advCreateOption ["2", "3"] ⟨"fld", "2", "Two", false, 1, []⟩).index
      = (⟨"fld", "2", "Two", false, 1, []⟩ : SelectOption).index :=
  c8_advanced_select_disables_exactly_disabled_values ["2", "3"]
    ⟨"fld", "2", "Two", false, 1, []⟩ (by decide)

/-! ## Claim C9 -/

/-- C9: when the field name is absent from the submitted data,
`RemoteSelect.value_from_datadict` returns `None` while
`MultipleRemoteSelect.value_from_datadict` returns the empty list; when the
name is present, `RemoteSelect` returns the value's string form and
`MultipleRemoteSelect` returns the list of non-empty comma-separated
segments. -/
theorem c9_value_from_datadict_absent_vs_present
    (d1 d2 : List (String × String)) (name v : String)
    (h1 : lookupA d1 name = none) (h2 : lookupA d2 name = some v) :
    rs_value_from_datadict d1 name = none ∧
    ms_value_from_datadict d1 name = [] ∧
    rs_value_from_datadict d2 name = some v ∧
    ms_value_from_datadict d2 name
      = ((pySplitC ',' v.data).filter (fun x => x ≠ [])).map String.mk := by
  simp [rs_value_from_datadict, ms_value_from_datadict, h1, h2]

/-- Witness for C9: concrete submitted data with the name absent in one dict
and bound to `"1,,2"` in the other. -/
theorem c9_value_from_datadict_witness :
    rs_value_from_datadict [("other", "9")] "tags" = none ∧
    ms_value_from_datadict [("other", "9")] "tags" = [] ∧
    rs_value_from_datadict [("tags", "1,,2")] "tags" = some "1,,2" ∧
    ms_value_from_datadict [("tags", "1,,2")] "tags"
      = ((pySplitC ',' ("1,,2" : String).data).filter
          (fun x => x ≠ [])).map String.mk :=
  c9_value_from_datadict_absent_vs_present [("other", "9")] [("tags", "1,,2")]
    "tags" "1,,2" (by decide) (by decide)

/-! ## Claim C10 -/

/-- C10: `DateTimePickerInput.__init__` with an explicit format and without
`include_seconds=True` stores the format with each leftmost `':?%S'` match
(the `'%S'` token and an immediately preceding `':'`) removed; with
`include_seconds=True`, or with no explicit format, the format is left
unchanged. -/
theorem c10_datetimepicker_strips_seconds :
    (∀ f : String,
        dateTimePickerFormat (some f) false = some (String.mk (subColonS f.data))) ∧
    (∀ f : String, dateTimePickerFormat (some f) true = some f) ∧
    (∀ b : Bool, dateTimePickerFormat none b = none) := by
  refine ⟨?_, ?_, fun b => rfl⟩
  · intro f
    by_cases hf : f = ""
    · subst hf; rfl
    · simp [dateTimePickerFormat, hf]
  · intro f
    simp [dateTimePickerFormat]

end OscarWidgets
